import Mathlib

/-!
Shallow embedding of the chunking-and-scheduling core of the
`swagger_to_ui` repository, together with theorems settling the spec
claims about it.

Conventions used throughout:
- Python `float` values are modelled as `ℚ` (exact rationals). The
  constants appearing in the claims are far from any binary-float
  rounding boundary, so the `ℚ` model agrees with the source on them.
- Python `int` counters and token amounts are `ℕ` (they are produced by
  `len`, counting, and sums of counts in the source, hence non-negative).
- Wall-clock reads (`time.time()`) become explicit time parameters: each
  lock-protected block of the rate limiter is modelled as happening at a
  single instant passed in as an argument.
- Code that can raise is modelled with `Option`/`Except`; a `none` /
  `.error` value marks the exception path of the source.
- Observability-only state that is written but never read back by any
  control-flow decision (the `TokenMetrics` record, `recent_requests`
  deque, and log output) is omitted from the state; no embedded function
  depends on it.
-/

/-! ## `src/core/rate_limiting.py` — `TokenBucket` -/

/-- Token bucket state: `capacity`, `tokens`, `refill_rate`, `last_refill`
from the `TokenBucket` dataclass. -/
structure TokenBucket where
  capacity : ℚ
  tokens : ℚ
  refill_rate : ℚ
  last_refill : ℚ
  deriving DecidableEq

/-- `TokenBucket.__post_init__`: clamp `tokens` down to `capacity`. -/
def mkTokenBucket (capacity tokens refill_rate last_refill : ℚ) : TokenBucket :=
  { capacity := capacity
    tokens := if capacity < tokens then capacity else tokens
    refill_rate := refill_rate
    last_refill := last_refill }

/-- `TokenBucket._refill` at wall-clock time `t`:
`tokens = min(capacity, tokens + elapsed * refill_rate)`. -/
def TokenBucket.refill (b : TokenBucket) (t : ℚ) : TokenBucket :=
  { b with
    tokens := min b.capacity (b.tokens + (t - b.last_refill) * b.refill_rate)
    last_refill := t }

/-- `TokenBucket.consume`: refill, then deduct if enough tokens are
available; returns the success flag and the mutated bucket. -/
def TokenBucket.consume (b : TokenBucket) (needed t : ℚ) : Bool × TokenBucket :=
  let b2 := b.refill t
  if needed ≤ b2.tokens then (true, { b2 with tokens := b2.tokens - needed })
  else (false, b2)

/-- `TokenBucket.wait_time`: refill, then compute the wait needed for
`needed` tokens. The source divides by `refill_rate`; Python raises
`ZeroDivisionError` when the rate is zero and tokens are insufficient,
modelled here as `none`. -/
def TokenBucket.wait_time (b : TokenBucket) (needed t : ℚ) : Option ℚ × TokenBucket :=
  let b2 := b.refill t
  if needed ≤ b2.tokens then (some 0, b2)
  else if b2.refill_rate = 0 then (none, b2)
  else (some ((needed - b2.tokens) / b2.refill_rate), b2)

/-- `TokenBucket.utilization` (a property that also refills): the source
divides by `capacity`, raising `ZeroDivisionError` when it is zero. -/
def TokenBucket.utilization (b : TokenBucket) (t : ℚ) : Option ℚ × TokenBucket :=
  let b2 := b.refill t
  (if b2.capacity = 0 then none else some ((b2.capacity - b2.tokens) / b2.capacity), b2)

/-! ### Operation sequences on one bucket (for the bucket invariant claim) -/

/-- One public operation on a `TokenBucket`. -/
inductive BucketOp where
  | consume (needed : ℕ)
  | waitTime (needed : ℕ)
  | refillOp
  | utilizationOp
  deriving DecidableEq

/-- State effect of one operation performed at time `t` (every source
operation starts with `_refill`; returned values are dropped here). -/
def bucketStep (b : TokenBucket) (op : BucketOp) (t : ℚ) : TokenBucket :=
  match op with
  | .consume needed => (b.consume needed t).2
  | .waitTime needed => (b.wait_time needed t).2
  | .refillOp => b.refill t
  | .utilizationOp => (b.utilization t).2

/-- Run a timed operation sequence left to right. -/
def runBucketOps (b : TokenBucket) (ops : List (BucketOp × ℚ)) : TokenBucket :=
  ops.foldl (fun s p => bucketStep s p.1 p.2) b

/-- Timestamps are non-decreasing, starting no earlier than `t0`. -/
def ChronoFrom (t0 : ℚ) : List (BucketOp × ℚ) → Prop
  | [] => True
  | p :: rest => t0 ≤ p.2 ∧ ChronoFrom p.2 rest

/-- The spec invariant `0 ≤ bucket.available ≤ bucket.capacity`. -/
def BucketInv (b : TokenBucket) : Prop :=
  0 ≤ b.tokens ∧ b.tokens ≤ b.capacity

/-! ## `src/core/rate_limiting.py` — `AzureOpenAIRateLimiter` -/

/-- Rate limiter state: the two buckets plus the adaptive-backoff
configuration (metrics and the bounded request log are write-only
observability state, omitted; see the file header). -/
structure AzureOpenAIRateLimiter where
  token_bucket : TokenBucket
  request_bucket : TokenBucket
  adaptive_backoff : Bool
  base_backoff : ℚ
  max_backoff : ℚ
  backoff_multiplier : ℚ
  current_backoff : ℚ
  deriving DecidableEq

/-- `AzureOpenAIRateLimiter.__init__` at construction time `t0`:
`safe = int(limit * margin)` (truncation; all uses have non-negative
arguments, so `int` agrees with the floor), both buckets start full with
refill rate `safe / 60`. -/
def mkRateLimiter (tpm_limit rpm_limit : ℕ) (tpm_safety_margin rpm_safety_margin : ℚ)
    (adaptive : Bool) (t0 : ℚ) : AzureOpenAIRateLimiter :=
  let safe_tpm : ℚ := (⌊(tpm_limit : ℚ) * tpm_safety_margin⌋ : ℤ)
  let safe_rpm : ℚ := (⌊(rpm_limit : ℚ) * rpm_safety_margin⌋ : ℤ)
  { token_bucket := mkTokenBucket safe_tpm safe_tpm (safe_tpm / 60) t0
    request_bucket := mkTokenBucket safe_rpm safe_rpm (safe_rpm / 60) t0
    adaptive_backoff := adaptive
    base_backoff := 1
    max_backoff := 300
    backoff_multiplier := 2
    current_backoff := 1 }

/-- The immediate-consume step of `acquire_tokens`:
`self.token_bucket.consume(estimated_tokens) and self.request_bucket.consume(1)`.
Python `and` short-circuits, so the request bucket is touched only when
the token-bucket consume succeeded. -/
def dualConsume (tb rb : TokenBucket) (est t : ℚ) : Bool × TokenBucket × TokenBucket :=
  let c1 := tb.consume est t
  if c1.1 then
    let c2 := rb.consume 1 t
    (c2.1, c1.2, c2.2)
  else (false, c1.2, rb)

/-- First locked block of `acquire_tokens` at time `t1`. -/
def acquireFirstPhase (rl : AzureOpenAIRateLimiter) (est t1 : ℚ) :
    Bool × TokenBucket × TokenBucket :=
  dualConsume rl.token_bucket rl.request_bucket est t1

/-- Wait-time computation after a failed immediate consume:
`required_wait = max(token_wait, request_wait)`, raised to
`current_backoff` when adaptive backoff is enabled. Also returns the
buckets as further refilled by the two `wait_time` calls. -/
def acquireRequiredWait (rl : AzureOpenAIRateLimiter) (est t1 : ℚ) :
    Option ℚ × TokenBucket × TokenBucket :=
  let fp := acquireFirstPhase rl est t1
  let w1 := fp.2.1.wait_time est t1
  let w2 := fp.2.2.wait_time 1 t1
  (match w1.1, w2.1 with
    | some token_wait, some request_wait =>
      let required := max token_wait request_wait
      some (if rl.adaptive_backoff then max required rl.current_backoff else required)
    | _, _ => none,
   w1.2, w2.2)

/-- `acquire_tokens(estimated_tokens, timeout)`, with the first locked
block at time `t1` and the post-sleep locked block at time `t2`.
Returns `(acquired, slept, new_state)`; `none` is the
`ZeroDivisionError` path of `wait_time`. -/
def acquireTokens (rl : AzureOpenAIRateLimiter) (est timeout t1 t2 : ℚ) :
    Option (Bool × ℚ × AzureOpenAIRateLimiter) :=
  let fp := acquireFirstPhase rl est t1
  if fp.1 then
    some (true, 0, { rl with token_bucket := fp.2.1, request_bucket := fp.2.2 })
  else
    let rw := acquireRequiredWait rl est t1
    match rw.1 with
    | none => none
    | some required =>
      if timeout < required then
        some (false, 0, { rl with token_bucket := rw.2.1, request_bucket := rw.2.2 })
      else
        let slept := if 0 < required then required else 0
        let sp := dualConsume rw.2.1 rw.2.2 est t2
        if sp.1 then
          some (true, slept,
            { rl with
              token_bucket := sp.2.1
              request_bucket := sp.2.2
              current_backoff :=
                if rl.adaptive_backoff then
                  max rl.base_backoff (rl.current_backoff * (8 / 10))
                else rl.current_backoff })
        else
          some (false, slept,
            { rl with
              token_bucket := sp.2.1
              request_bucket := sp.2.2
              current_backoff :=
                if rl.adaptive_backoff then
                  min rl.max_backoff (rl.current_backoff * rl.backoff_multiplier)
                else rl.current_backoff })

/-! ## `src/core/advanced_chunking.py` — data model -/

/-- The slice of an endpoint dict that the chunking pipeline itself reads:
only the optional `tags` key (grouping and coherence). All other keys are
consumed by the per-endpoint analysis, which is a parameter below. -/
structure EndpointData where
  tags : Option (List String)
  deriving DecidableEq

/-- `EndpointComplexity` dataclass. -/
structure EndpointComplexity where
  endpoint_data : EndpointData
  token_count : ℕ
  complexity_score : ℚ
  semantic_weight : ℚ
  priority : ℕ
  deriving DecidableEq

/-- The `complexity_distribution` dict built by `_build_chunk`
(keys `simple` / `moderate` / `complex`). -/
structure ComplexityDistribution where
  simple : ℕ
  moderate : ℕ
  complex : ℕ
  deriving DecidableEq

/-- `IntelligentChunk` dataclass. -/
structure IntelligentChunk where
  chunk_id : String
  endpoints : List EndpointComplexity
  estimated_tokens : ℕ
  complexity_distribution : ComplexityDistribution
  semantic_coherence : ℚ
  processing_priority : ℕ
  deriving DecidableEq

/-- Chunker configuration (`AdvancedAPIChunker.__init__` fields; the
tiktoken encoder is an external collaborator and does not appear). -/
structure AdvancedAPIChunker where
  target_tokens_per_chunk : ℕ := 12000
  max_tokens_per_chunk : ℕ := 15000
  min_endpoints_per_chunk : ℕ := 2
  max_endpoints_per_chunk : ℕ := 12
  deriving DecidableEq

/-- Sum of the members' `token_count` values. -/
def sumTok (l : List EndpointComplexity) : ℕ :=
  (l.map (fun e => e.token_count)).sum

/-- `min(ep.priority for ep in endpoints)`; the source raises
`ValueError` on an empty list, which no caller produces — the `[]` case
here is junk and is never relied on. -/
def minPriority : List EndpointComplexity → ℕ
  | [] => 0
  | e :: es => es.foldl (fun m x => Nat.min m x.priority) e.priority

/-- `tags` of one endpoint as read by `_build_chunk`
(`ep.endpoint_data.get('tags', [])`). -/
def tagsOrEmpty (e : EndpointComplexity) : List String :=
  e.endpoint_data.tags.getD []

/-- `_build_chunk(chunk_id, endpoints, estimated_tokens)`. -/
def buildChunk (chunk_id : String) (endpoints : List EndpointComplexity)
    (estimated_tokens : ℕ) : IntelligentChunk :=
  let all_tags := endpoints.flatMap tagsOrEmpty
  let unique_tags := all_tags.dedup
  { chunk_id := chunk_id
    endpoints := endpoints
    estimated_tokens := estimated_tokens
    complexity_distribution :=
      { simple := endpoints.countP (fun e => e.complexity_score < 3)
        moderate := endpoints.countP (fun e => 3 ≤ e.complexity_score ∧ e.complexity_score < 6)
        complex := endpoints.countP (fun e => 6 ≤ e.complexity_score) }
    semantic_coherence :=
      if unique_tags.isEmpty then 1 else (all_tags.length : ℚ) / (unique_tags.length : ℚ)
    processing_priority := minPriority endpoints }

/-- Sort key of `_create_balanced_chunks`:
`(ep.priority, -ep.complexity_score)` ascending. Python `sorted` is
stable; `List.insertionSort` with this non-strict relation is a stable
sort, and a stable sort is uniquely determined by the key order, so the
two agree exactly. -/
def endpointSortRel (a b : EndpointComplexity) : Prop :=
  a.priority < b.priority ∨ (a.priority = b.priority ∧ b.complexity_score ≤ a.complexity_score)

instance : DecidableRel endpointSortRel := fun a b =>
  inferInstanceAs (Decidable (_ ∨ _))

/-- The `should_create_new_chunk` condition of `_create_balanced_chunks`,
with `projected = current_tokens + ep.token_count` and `n` the current
member count. -/
def shouldCreateNewChunk (cfg : AdvancedAPIChunker) (projected n : ℕ) : Bool :=
  decide (cfg.max_tokens_per_chunk < projected) ||
    (decide (cfg.target_tokens_per_chunk < projected) &&
      decide (cfg.min_endpoints_per_chunk ≤ n)) ||
    decide (cfg.max_endpoints_per_chunk ≤ n)

/-- The greedy accumulation loop of `_create_balanced_chunks`:
`cur`/`curTok` are the running chunk and its token sum, `counter` the
chunk id counter; the final chunk is flushed unconditionally. -/
def balancedChunksGo (cfg : AdvancedAPIChunker) (group_name : String) :
    List EndpointComplexity → List EndpointComplexity → ℕ → ℕ → List IntelligentChunk
  | [], cur, curTok, counter =>
    if cur.isEmpty then []
    else [buildChunk (group_name ++ "_" ++ toString counter) cur curTok]
  | ep :: rest, cur, curTok, counter =>
    if shouldCreateNewChunk cfg (curTok + ep.token_count) cur.length && !cur.isEmpty then
      buildChunk (group_name ++ "_" ++ toString counter) cur curTok ::
        balancedChunksGo cfg group_name rest [ep] ep.token_count (counter + 1)
    else
      balancedChunksGo cfg group_name rest (cur ++ [ep]) (curTok + ep.token_count) counter

/-- `_create_balanced_chunks(endpoints, group_name)`. -/
def createBalancedChunks (cfg : AdvancedAPIChunker) (endpoints : List EndpointComplexity)
    (group_name : String) : List IntelligentChunk :=
  if endpoints.isEmpty then []
  else balancedChunksGo cfg group_name (List.insertionSort endpointSortRel endpoints) [] 0 0

/-- `_split_large_chunk`: positional halves, each child recomputing its
own token sum via `_build_chunk`. -/
def splitLargeChunk (large : IntelligentChunk) : List IntelligentChunk :=
  let mid := large.endpoints.length / 2
  let chunk1_endpoints := large.endpoints.take mid
  let chunk2_endpoints := large.endpoints.drop mid
  [buildChunk (large.chunk_id ++ "_part1") chunk1_endpoints (sumTok chunk1_endpoints),
   buildChunk (large.chunk_id ++ "_part2") chunk2_endpoints (sumTok chunk2_endpoints)]

/-- The split condition on one chunk in `_optimize_chunk_distribution`:
source `est > max * 0.9 and count > min * 2`. Both sides of the first
comparison are integers, so it is stated over `ℕ` as `10*est > 9*max`,
which agrees with the source comparison on all integer inputs. -/
def splitCond (cfg : AdvancedAPIChunker) (c : IntelligentChunk) : Bool :=
  decide (9 * cfg.max_tokens_per_chunk < 10 * c.estimated_tokens) &&
    decide (2 * cfg.min_endpoints_per_chunk < c.endpoints.length)

/-- Per-chunk action of the split pass. -/
def optimizeStep (cfg : AdvancedAPIChunker) (c : IntelligentChunk) : List IntelligentChunk :=
  if splitCond cfg c then splitLargeChunk c else [c]

/-- Sort key of `_optimize_chunk_distribution`:
`(processing_priority, -estimated_tokens)` ascending (stable). -/
def chunkSortRel (a b : IntelligentChunk) : Prop :=
  a.processing_priority < b.processing_priority ∨
    (a.processing_priority = b.processing_priority ∧ b.estimated_tokens ≤ a.estimated_tokens)

instance : DecidableRel chunkSortRel := fun a b =>
  inferInstanceAs (Decidable (_ ∨ _))

/-- `_optimize_chunk_distribution(chunks)`: identity on lists of length
at most one, otherwise sort and apply the single, non-recursive split
pass. -/
def optimizeChunkDistribution (cfg : AdvancedAPIChunker) (chunks : List IntelligentChunk) :
    List IntelligentChunk :=
  if chunks.length ≤ 1 then chunks
  else (List.insertionSort chunkSortRel chunks).flatMap (optimizeStep cfg)

/-- Primary tag of one analyzed endpoint in `_group_by_semantics`:
`tags = data.get('tags', ['default']); tags[0] if tags else 'default'`. -/
def primaryTag (e : EndpointComplexity) : String :=
  match e.endpoint_data.tags with
  | none => "default"
  | some [] => "default"
  | some (t :: _) => t

/-- Append `ep` to the group keyed `key`, preserving first-occurrence
order of keys (Python dict insertion order). -/
def insertGrouped (key : String) (ep : EndpointComplexity) :
    List (String × List EndpointComplexity) → List (String × List EndpointComplexity)
  | [] => [(key, [ep])]
  | (k, l) :: rest =>
    if k = key then (k, l ++ [ep]) :: rest else (k, l) :: insertGrouped key ep rest

/-- `_group_by_semantics(endpoints)`. -/
def groupBySemantics (endpoints : List EndpointComplexity) :
    List (String × List EndpointComplexity) :=
  endpoints.foldl (fun gs ep => insertGrouped (primaryTag ep) ep gs) []

/-- The `api_summary` shape consumed by `create_intelligent_chunks`:
only its `endpoints` list reaches the chunking pipeline. -/
structure ApiSummary where
  endpoints : List EndpointData
  deriving DecidableEq

/-- Exception values surfaced by the chunking entry point. -/
inductive PyError where
  | zeroDivisionError
  deriving DecidableEq

/-- `create_intelligent_chunks(api_summary, use_semantic_grouping)`.
`analyzeOne` is the per-endpoint analysis of `analyze_endpoints`
(complexity scoring plus the external tiktoken token count), which
produces exactly one `EndpointComplexity` per input endpoint. Directly
after the analysis the source prints the average complexity computed as
`sum(...) / len(analyzed_endpoints)`, which raises `ZeroDivisionError`
when the endpoint list is empty. -/
def createIntelligentChunks (cfg : AdvancedAPIChunker)
    (analyzeOne : EndpointData → EndpointComplexity) (api_summary : ApiSummary)
    (use_semantic_grouping : Bool) : Except PyError (List IntelligentChunk) :=
  let analyzed := api_summary.endpoints.map analyzeOne
  if analyzed.length = 0 then Except.error PyError.zeroDivisionError
  else
    Except.ok (optimizeChunkDistribution cfg
      (if use_semantic_grouping then
        (groupBySemantics analyzed).flatMap (fun p => createBalancedChunks cfg p.2 p.1)
      else createBalancedChunks cfg analyzed "mixed"))

/-! ## `src/core/parallel_processing.py` — retry loop and merger -/

/-- True when the first list occurs at the head of the second. -/
def leadsWith : List Char → List Char → Bool
  | [], _ => true
  | _ :: _, [] => false
  | a :: as, b :: bs => a == b && leadsWith as bs

/-- True when the first list occurs contiguously inside the second
(Python `needle in haystack` on strings). -/
def containsSeq (needle : List Char) : List Char → Bool
  | [] => needle.isEmpty
  | b :: bs => leadsWith needle (b :: bs) || containsSeq needle bs

/-- The rate-limit test of the except branch:
`"429" in error_msg or "rate limit" in error_msg.lower()`. -/
def isRateLimitMsg (msg : String) : Bool :=
  containsSeq "429".data msg.data ||
    containsSeq "rate limit".data (msg.data.map Char.toLower)

/-- Outcome of one attempt body (rate-limiter acquire plus the
generation call): the produced `ui_content`, or the message of the
raised exception. -/
inductive AttemptOutcome where
  | ok (content : String)
  | err (msg : String)
  deriving DecidableEq

/-- `ProcessingResult` dataclass (wall-clock `processing_time` and the
pass-through `tokens_used` metric omitted; neither is read by any
control-flow decision or by the merger's ordering/filtering). -/
structure ProcessingResult where
  task_id : String
  success : Bool
  ui_content : Option String
  error : Option String
  retry_count : ℕ
  deriving DecidableEq

/-- Observable summary of one run of the retry loop: the emitted result,
the number of attempt bodies executed, and the number of backoff sleeps
performed. -/
structure TaskRunResult where
  result : ProcessingResult
  attempts : ℕ
  sleeps : ℕ
  deriving DecidableEq

/-- The `for attempt in range(max_retries + 1)` loop of
`_process_task_with_retries`, as structural recursion on the remaining
iteration count. On an error the source sleeps and continues when the
message is rate-limit-shaped and `attempt < max_retries`; it returns a
failure when `attempt == max_retries`; otherwise the loop body simply
falls through to the next iteration (no sleep). The fuel-exhausted case
is the unreachable fallback result after the loop. -/
def processGo (beh : ℕ → AttemptOutcome) (tid : String) (maxRetries : ℕ) :
    ℕ → ℕ → TaskRunResult
  | attempt, 0 =>
    { result := { task_id := tid, success := false, ui_content := none,
                  error := some "Maximum retries exceeded", retry_count := 0 }
      attempts := attempt
      sleeps := 0 }
  | attempt, fuel + 1 =>
    match beh attempt with
    | .ok content =>
      { result := { task_id := tid, success := true, ui_content := some content,
                    error := none, retry_count := attempt }
        attempts := attempt + 1
        sleeps := 0 }
    | .err msg =>
      if attempt = maxRetries then
        { result := { task_id := tid, success := false, ui_content := none,
                      error := some msg, retry_count := attempt }
          attempts := attempt + 1
          sleeps := 0 }
      else
        let rest := processGo beh tid maxRetries (attempt + 1) fuel
        { rest with sleeps := rest.sleeps + (if isRateLimitMsg msg then 1 else 0) }

/-- `_process_task_with_retries(task, ...)` for a task with id `tid` and
retry budget `maxRetries`, against an attempt behaviour `beh`. -/
def processTaskWithRetries (beh : ℕ → AttemptOutcome) (tid : String)
    (maxRetries : ℕ) : TaskRunResult :=
  processGo beh tid maxRetries 0 (maxRetries + 1)

/-- Python truthiness of the optional `ui_content` string:
absent and empty are falsy. -/
def contentTruthy : Option String → Bool
  | none => false
  | some s => !s.data.isEmpty

/-- The filter of `_merge_results_intelligent`:
`[r for r in results if r.success and r.ui_content]`. -/
def successfulResults (results : List ProcessingResult) : List ProcessingResult :=
  results.filter (fun r => r.success && contentTruthy r.ui_content)

/-- Python string `<=` (lexicographic on code points), as a computable
comparison on the character lists. -/
def charListLe : List Char → List Char → Bool
  | [], _ => true
  | _ :: _, [] => false
  | a :: as, b :: bs => if a < b then true else if b < a then false else charListLe as bs

/-- Sort key of the merger: ascending `task_id` (Python `sort` is
stable; see `endpointSortRel` for why `insertionSort` matches it). -/
def resultLe (a b : ProcessingResult) : Prop :=
  charListLe a.task_id.data b.task_id.data = true

instance : DecidableRel resultLe := fun a b =>
  inferInstanceAs (Decidable (_ = true))

/-- `_merge_results_intelligent(results, ...)`: filter to truthy
successes, raise when none remain, else sort by `task_id`. The returned
list is the order in which the per-chunk `ui_content` strings are
concatenated into the final artifact (the surrounding constant HTML
header/footer templating is not modelled). -/
def mergeResultsIntelligent (results : List ProcessingResult) :
    Except String (List ProcessingResult) :=
  let successful := successfulResults results
  if successful.isEmpty then Except.error "No successful chunks to merge"
  else Except.ok (List.insertionSort resultLe successful)

/-! ## Concrete inputs used by witnesses and counterexamples -/

/-- Default chunker configuration (all `__init__` defaults). -/
def cfgDefault : AdvancedAPIChunker := {}

/-- A single oversized operation: its token estimate alone exceeds
`max_tokens_per_chunk`. -/
def epBig : EndpointComplexity :=
  { endpoint_data := { tags := none }, token_count := 16000,
    complexity_score := 1, semantic_weight := 1, priority := 1 }

/-- Small operation used in the chunk-bound witness. -/
def epSmallA : EndpointComplexity :=
  { endpoint_data := { tags := none }, token_count := 100,
    complexity_score := 1, semantic_weight := 1, priority := 1 }

/-- Second small operation used in the chunk-bound witness. -/
def epSmallB : EndpointComplexity :=
  { endpoint_data := { tags := none }, token_count := 150,
    complexity_score := 2, semantic_weight := 1, priority := 1 }

/-- The chunk produced from `[epSmallA, epSmallB]` by the pipeline
(sorted by descending complexity within the tier, packed into one
chunk). -/
def chunkSmallPair : IntelligentChunk :=
  { chunk_id := "g_0", endpoints := [epSmallB, epSmallA], estimated_tokens := 250,
    complexity_distribution := { simple := 2, moderate := 0, complex := 0 },
    semantic_coherence := 1, processing_priority := 1 }

/-- Rate limiter state reached from
`mkRateLimiter 600 2 (1/2) (9/10) true 0` after one successful
`acquire_tokens 100` at time 0: the request bucket is drained. -/
def rlAfterFirstAcquire : AzureOpenAIRateLimiter :=
  { token_bucket := { capacity := 300, tokens := 200, refill_rate := 5, last_refill := 0 }
    request_bucket := { capacity := 1, tokens := 0, refill_rate := 1 / 60, last_refill := 0 }
    adaptive_backoff := true, base_backoff := 1, max_backoff := 300,
    backoff_multiplier := 2, current_backoff := 1 }

/-- State after the second (failed) acquire: the token bucket lost 100
tokens although the acquire returned false. -/
def rlAfterFailedAcquire : AzureOpenAIRateLimiter :=
  { token_bucket := { capacity := 300, tokens := 100, refill_rate := 5, last_refill := 0 }
    request_bucket := { capacity := 1, tokens := 0, refill_rate := 1 / 60, last_refill := 0 }
    adaptive_backoff := true, base_backoff := 1, max_backoff := 300,
    backoff_multiplier := 2, current_backoff := 1 }

/-- Token bucket with room, used in the dual-consume witness. -/
def tbWitness : TokenBucket :=
  { capacity := 300, tokens := 300, refill_rate := 5, last_refill := 0 }

/-- Drained request bucket, used in the dual-consume witness. -/
def rbWitness : TokenBucket :=
  { capacity := 1, tokens := 0, refill_rate := 1 / 60, last_refill := 0 }

/-- Timed operation sequence for the bucket-invariant witness
(the spec scenario: consume 1000 at t=0, refill at t=5). -/
def c4WitnessOps : List (BucketOp × ℚ) :=
  [(BucketOp.consume 1000, 0), (BucketOp.refillOp, 5)]

/-- Behaviour whose first attempt raises a non-rate-limit error and
whose later attempts succeed. -/
def behFirstErrThenOk : ℕ → AttemptOutcome :=
  fun i => if i = 0 then AttemptOutcome.err "connection reset" else AttemptOutcome.ok "<div>ok</div>"

/-- Behaviour raising a non-rate-limit error on every attempt. -/
def behAlwaysBoom : ℕ → AttemptOutcome :=
  fun _ => AttemptOutcome.err "boom"

/-- Behaviour raising a rate-limit error on every attempt. -/
def behAlways429 : ℕ → AttemptOutcome :=
  fun _ => AttemptOutcome.err "429 Too Many Requests"

/-- A result flagged successful but with absent artifact content. -/
def rSuccessNoContent : ProcessingResult :=
  { task_id := "chunk_0_default_0", success := true, ui_content := none,
    error := none, retry_count := 0 }

/-- A plain failed result. -/
def rFailedMerge : ProcessingResult :=
  { task_id := "chunk_1_default_1", success := false, ui_content := none,
    error := some "boom", retry_count := 3 }

/-- A successful result with non-empty content. -/
def rGoodMerge : ProcessingResult :=
  { task_id := "chunk_0_default_0", success := true, ui_content := some "<div>a</div>",
    error := none, retry_count := 0 }

/-- A failed result for the empty-content merge witness. -/
def rFailedEmptyCase : ProcessingResult :=
  { task_id := "chunk_0_users_0", success := false, ui_content := none,
    error := some "timeout", retry_count := 1 }

/-- A result flagged successful whose artifact content is the empty
string. -/
def rSuccessEmptyContent : ProcessingResult :=
  { task_id := "chunk_1_users_1", success := true, ui_content := some "",
    error := none, retry_count := 0 }

/-- Trivial per-endpoint analysis used to instantiate the chunking entry
point in witnesses. -/
def analyzeConst : EndpointData → EndpointComplexity :=
  fun d => { endpoint_data := d, token_count := 10, complexity_score := 1,
             semantic_weight := 1, priority := 1 }

/-! ## Helper lemmas -/

@[simp]
theorem buildChunk_endpoints (i : String) (l : List EndpointComplexity) (n : ℕ) :
    (buildChunk i l n).endpoints = l := rfl

@[simp]
theorem buildChunk_estimated_tokens (i : String) (l : List EndpointComplexity) (n : ℕ) :
    (buildChunk i l n).estimated_tokens = n := rfl

@[simp]
theorem sumTok_nil : sumTok [] = 0 := rfl

@[simp]
theorem sumTok_cons (e : EndpointComplexity) (l : List EndpointComplexity) :
    sumTok (e :: l) = e.token_count + sumTok l := by
  simp [sumTok]

@[simp]
theorem sumTok_append (l₁ l₂ : List EndpointComplexity) :
    sumTok (l₁ ++ l₂) = sumTok l₁ + sumTok l₂ := by
  simp [sumTok]

theorem sumTok_take_add_drop (l : List EndpointComplexity) (n : ℕ) :
    sumTok (l.take n) + sumTok (l.drop n) = sumTok l := by
  simp [sumTok, List.map_take, List.map_drop, List.sum_take_add_sum_drop]

/-! ## Token bucket invariant (claim C4) -/

theorem refill_capacity (b : TokenBucket) (t : ℚ) : (b.refill t).capacity = b.capacity := rfl

theorem refill_rate_eq (b : TokenBucket) (t : ℚ) : (b.refill t).refill_rate = b.refill_rate := rfl

theorem refill_inv (b : TokenBucket) (t : ℚ) (hr : 0 ≤ b.refill_rate)
    (ht : b.last_refill ≤ t) (h : BucketInv b) : BucketInv (b.refill t) := by
  obtain ⟨h0, hc⟩ := h
  constructor
  · have hcap : (0 : ℚ) ≤ b.capacity := le_trans h0 hc
    have : (0 : ℚ) ≤ b.tokens + (t - b.last_refill) * b.refill_rate :=
      add_nonneg h0 (mul_nonneg (sub_nonneg.mpr ht) hr)
    exact le_min hcap this
  · exact min_le_left _ _

theorem bucketStep_inv (b : TokenBucket) (op : BucketOp) (t : ℚ)
    (hr : 0 ≤ b.refill_rate) (ht : b.last_refill ≤ t) (h : BucketInv b) :
    BucketInv (bucketStep b op t) := by
  have hrefill := refill_inv b t hr ht h
  cases op with
  | consume needed =>
    simp only [bucketStep, TokenBucket.consume]
    split
    · rename_i hle
      obtain ⟨h0, hc⟩ := hrefill
      refine ⟨sub_nonneg.mpr hle, le_trans (sub_le_self _ ?_) hc⟩
      exact_mod_cast Nat.zero_le needed
    · exact hrefill
  | waitTime needed =>
    simp only [bucketStep, TokenBucket.wait_time]
    split <;> [exact hrefill; skip]
    split <;> exact hrefill
  | refillOp => exact hrefill
  | utilizationOp => exact hrefill

theorem bucketStep_last_refill (b : TokenBucket) (op : BucketOp) (t : ℚ) :
    (bucketStep b op t).last_refill = t := by
  cases op with
  | consume needed =>
    simp only [bucketStep, TokenBucket.consume]
    split <;> rfl
  | waitTime needed =>
    simp only [bucketStep, TokenBucket.wait_time]
    split <;> [rfl; skip]
    split <;> rfl
  | refillOp => rfl
  | utilizationOp => rfl

theorem bucketStep_refill_rate (b : TokenBucket) (op : BucketOp) (t : ℚ) :
    (bucketStep b op t).refill_rate = b.refill_rate := by
  cases op with
  | consume needed =>
    simp only [bucketStep, TokenBucket.consume]
    split <;> rfl
  | waitTime needed =>
    simp only [bucketStep, TokenBucket.wait_time]
    split <;> [rfl; skip]
    split <;> rfl
  | refillOp => rfl
  | utilizationOp => rfl

theorem runBucketOps_inv (ops : List (BucketOp × ℚ)) (b : TokenBucket)
    (hr : 0 ≤ b.refill_rate) (h : BucketInv b) (hc : ChronoFrom b.last_refill ops) :
    BucketInv (runBucketOps b ops) := by
  induction ops generalizing b with
  | nil => exact h
  | cons p rest ih =>
    obtain ⟨ht, hrest⟩ := hc
    have hstep := bucketStep_inv b p.1 p.2 hr ht h
    have hrate : 0 ≤ (bucketStep b p.1 p.2).refill_rate := by
      rw [bucketStep_refill_rate]; exact hr
    have hlast : ChronoFrom (bucketStep b p.1 p.2).last_refill rest := by
      rw [bucketStep_last_refill]; exact hrest
    simpa [runBucketOps] using ih (bucketStep b p.1 p.2) hrate hstep hlast

/-- C4: for every `TokenBucket` constructed with non-negative capacity,
non-negative initial tokens not exceeding the capacity, and non-negative
refill rate (every bucket the source constructs has rate
`capacity / 60 ≥ 0`), and for every sequence of `consume` / `wait_time` /
`refill` / `utilization` operations at non-decreasing times starting no
earlier than the construction time, the invariant
`0 ≤ tokens ≤ capacity` holds after every operation (every prefix of a
chronological sequence is itself such a sequence). -/
theorem c4_bucket_invariant (capacity tokens refill_rate t0 : ℚ)
    (ops : List (BucketOp × ℚ)) (hcap : 0 ≤ capacity) (h0 : 0 ≤ tokens)
    (hle : tokens ≤ capacity) (hr : 0 ≤ refill_rate) (hc : ChronoFrom t0 ops) :
    BucketInv (runBucketOps (mkTokenBucket capacity tokens refill_rate t0) ops) := by
  have hb : BucketInv (mkTokenBucket capacity tokens refill_rate t0) := by
    constructor
    · simp only [mkTokenBucket]
      split <;> [exact hcap; exact h0]
    · simp only [mkTokenBucket]
      split <;> [exact le_refl _; exact hle]
  exact runBucketOps_inv ops _ hr hb hc

/-- Witness for C4 at the spec scenario bucket
(`capacity = 1000`, `refill_rate = 100/s`, consume 1000 at t=0, refill
at t=5). -/
theorem c4_bucket_invariant_witness :
    ChronoFrom 0 c4WitnessOps ∧
      BucketInv (runBucketOps (mkTokenBucket 1000 1000 100 0) c4WitnessOps) := by
  have hc : ChronoFrom 0 c4WitnessOps := by
    simp [c4WitnessOps, ChronoFrom]
  exact ⟨hc, c4_bucket_invariant 1000 1000 100 0 c4WitnessOps (by norm_num) (by norm_num)
    (by norm_num) (by norm_num) hc⟩

/-! ## Rate limiter consume atomicity (claim C1) -/

/-- C1 (amended): the immediate consume of `acquire_tokens` is
all-or-nothing only in one direction. When it fails: if the token bucket
was insufficient, both buckets keep their levels (the request bucket is
not even touched, by short-circuit); but if the token bucket sufficed
and the request bucket was insufficient, the token bucket keeps the
deduction of `est` even though the acquire attempt failed. -/
theorem c1_amended (tb rb : TokenBucket) (est t : ℚ)
    (hfail : (dualConsume tb rb est t).1 = false) :
    ((tb.refill t).tokens < est →
      (dualConsume tb rb est t).2.1 = tb.refill t ∧ (dualConsume tb rb est t).2.2 = rb)
    ∧ (est ≤ (tb.refill t).tokens →
      (dualConsume tb rb est t).2.1.tokens = (tb.refill t).tokens - est
      ∧ (dualConsume tb rb est t).2.2 = rb.refill t
      ∧ (rb.refill t).tokens < 1) := by
  by_cases h1 : est ≤ (tb.refill t).tokens
  · constructor
    · intro hlt
      exact absurd h1 (not_le.mpr hlt)
    · intro _
      by_cases h2 : (1 : ℚ) ≤ (rb.refill t).tokens
      · exfalso
        simp [dualConsume, TokenBucket.consume, h1, h2] at hfail
      · refine ⟨?_, ?_, not_le.mp h2⟩
        · simp [dualConsume, TokenBucket.consume, h1, h2]
        · simp [dualConsume, TokenBucket.consume, h1, h2]
  · constructor
    · intro _
      constructor
      · simp [dualConsume, TokenBucket.consume, h1]
      · simp [dualConsume, TokenBucket.consume, h1]
    · intro hle
      exact absurd hle h1

/-- Witness for C1 (amended) at a concrete state: token bucket has 300
tokens, request bucket 0; a 100-token acquire attempt fails yet the
token bucket is left at `300 - 100`. -/
theorem c1_amended_witness :
    (dualConsume tbWitness rbWitness 100 0).1 = false
    ∧ (dualConsume tbWitness rbWitness 100 0).2.1.tokens
        = (tbWitness.refill 0).tokens - 100
    ∧ (dualConsume tbWitness rbWitness 100 0).2.2 = rbWitness.refill 0
    ∧ (rbWitness.refill 0).tokens < 1 := by
  have hfail : (dualConsume tbWitness rbWitness 100 0).1 = false := by
    norm_num [dualConsume, TokenBucket.consume, TokenBucket.refill, tbWitness, rbWitness]
  have hle : (100 : ℚ) ≤ (tbWitness.refill 0).tokens := by
    norm_num [TokenBucket.refill, tbWitness]
  exact ⟨hfail, (c1_amended tbWitness rbWitness 100 0 hfail).2 hle⟩

/-- C1 counterexample: starting from
`mkRateLimiter 600 2 (1/2) (9/10) true 0` (token bucket capacity 300,
request bucket capacity 1), a first acquire of 100 tokens succeeds and
drains the request bucket; the second acquire of 100 tokens fails, yet
it reduces the token bucket from its post-refill level 200 down to 100 —
the failed attempt did not leave the buckets unchanged. -/
theorem c1_counterexample :
    acquireTokens (mkRateLimiter 600 2 (1 / 2) (9 / 10) true 0) 100 300 0 0
        = some (true, 0, rlAfterFirstAcquire)
    ∧ acquireTokens rlAfterFirstAcquire 100 1 0 0 = some (false, 0, rlAfterFailedAcquire)
    ∧ (rlAfterFirstAcquire.token_bucket.refill 0).tokens = 200
    ∧ rlAfterFailedAcquire.token_bucket.tokens = 100
    ∧ rlAfterFailedAcquire.token_bucket.tokens
        ≠ (rlAfterFirstAcquire.token_bucket.refill 0).tokens := by
  refine ⟨?_, ?_, ?_, ?_, ?_⟩
  · norm_num [acquireTokens, acquireFirstPhase, acquireRequiredWait, dualConsume,
      TokenBucket.consume, TokenBucket.wait_time, TokenBucket.refill, mkRateLimiter,
      mkTokenBucket, rlAfterFirstAcquire]
  · norm_num [acquireTokens, acquireFirstPhase, acquireRequiredWait, dualConsume,
      TokenBucket.consume, TokenBucket.wait_time, TokenBucket.refill,
      rlAfterFirstAcquire, rlAfterFailedAcquire]
  · norm_num [TokenBucket.refill, rlAfterFirstAcquire]
  · norm_num [rlAfterFailedAcquire]
  · norm_num [TokenBucket.refill, rlAfterFirstAcquire, rlAfterFailedAcquire]

/-! ## Rate limiter wait-versus-timeout (claim C7) -/

/-- C7: whenever the immediate consume fails and the computed required
wait (max of the two buckets' wait times, raised to the current backoff
under adaptive backoff) exceeds the caller's timeout, `acquire_tokens`
returns `false` having slept 0 seconds; in particular the limiter built
with `tpm_limit=600, tpm_safety_margin=0.5` (derated capacity 300,
refill 5/s) refuses a 400-token request with a 1-second timeout, the
wait being 20 seconds. -/
theorem c7_wait_exceeds_timeout :
    (∀ (rl : AzureOpenAIRateLimiter) (est timeout t1 t2 w : ℚ),
      (acquireFirstPhase rl est t1).1 = false →
      (acquireRequiredWait rl est t1).1 = some w →
      timeout < w →
      (acquireTokens rl est timeout t1 t2).map (fun r => (r.1, r.2.1)) = some (false, 0))
    ∧ (acquireTokens (mkRateLimiter 600 720 (1 / 2) (9 / 10) true 0) 400 1 0 0).map
        (fun r => (r.1, r.2.1)) = some (false, 0)
    ∧ (acquireRequiredWait (mkRateLimiter 600 720 (1 / 2) (9 / 10) true 0) 400 0).1
        = some 20 := by
  refine ⟨?_, ?_, ?_⟩
  · intro rl est timeout t1 t2 w hfp hrw hlt
    simp only [acquireTokens, hfp, if_false, hrw, Bool.false_eq_true]
    rw [if_pos hlt]
    simp
  · norm_num [acquireTokens, acquireFirstPhase, acquireRequiredWait, dualConsume,
      TokenBucket.consume, TokenBucket.wait_time, TokenBucket.refill, mkRateLimiter,
      mkTokenBucket]
  · norm_num [acquireRequiredWait, acquireFirstPhase, dualConsume,
      TokenBucket.consume, TokenBucket.wait_time, TokenBucket.refill, mkRateLimiter,
      mkTokenBucket]

/-- Witness for C7 applying the universal part at the scenario limiter
with a different timeout and post-sleep time. -/
theorem c7_wait_exceeds_timeout_witness :
    (acquireTokens (mkRateLimiter 600 720 (1 / 2) (9 / 10) true 0) 400 2 0 9).map
        (fun r => (r.1, r.2.1)) = some (false, 0) := by
  have hfp : (acquireFirstPhase (mkRateLimiter 600 720 (1 / 2) (9 / 10) true 0) 400 0).1
      = false := by
    norm_num [acquireFirstPhase, dualConsume, TokenBucket.consume, TokenBucket.refill,
      mkRateLimiter, mkTokenBucket]
  exact c7_wait_exceeds_timeout.1 (mkRateLimiter 600 720 (1 / 2) (9 / 10) true 0)
    400 2 0 9 20 hfp c7_wait_exceeds_timeout.2.2 (by norm_num)

/-! ## Retry loop (claims C2 and C3) -/

theorem processGo_attempts_le (beh : ℕ → AttemptOutcome) (tid : String) (maxR : ℕ) :
    ∀ (fuel attempt : ℕ), (processGo beh tid maxR attempt fuel).attempts ≤ attempt + fuel := by
  intro fuel
  induction fuel with
  | zero => intro attempt; simp [processGo]
  | succ n ih =>
    intro attempt
    simp only [processGo]
    cases beh attempt with
    | ok content => simp
    | err msg =>
      by_cases h : attempt = maxR
      · simp [h]
      · simpa [h] using le_trans (ih (attempt + 1)) (by omega)

theorem processGo_all_err (beh : ℕ → AttemptOutcome) (tid : String) (maxR : ℕ)
    (rl : Bool)
    (hbeh : ∀ i, i ≤ maxR → ∃ m, beh i = AttemptOutcome.err m ∧ isRateLimitMsg m = rl) :
    ∀ (fuel attempt : ℕ), attempt ≤ maxR → attempt + fuel = maxR + 1 →
      (processGo beh tid maxR attempt fuel).result.success = false
      ∧ (processGo beh tid maxR attempt fuel).result.retry_count = maxR
      ∧ (processGo beh tid maxR attempt fuel).attempts = maxR + 1
      ∧ (processGo beh tid maxR attempt fuel).sleeps = (if rl then maxR - attempt else 0) := by
  intro fuel
  induction fuel with
  | zero => intro attempt h1 h2; omega
  | succ n ih =>
    intro attempt h1 h2
    obtain ⟨m, hm, hrl⟩ := hbeh attempt h1
    simp only [processGo, hm]
    by_cases h : attempt = maxR
    · subst h
      simp
    · have h1' : attempt + 1 ≤ maxR := by omega
      have h2' : (attempt + 1) + n = maxR + 1 := by omega
      obtain ⟨ha, hb, hc, hd⟩ := ih (attempt + 1) h1' h2'
      simp only [h, if_false]
      refine ⟨ha, hb, hc, ?_⟩
      simp only [hd, hrl]
      cases rl with
      | false => simp
      | true =>
        simp only [if_true]
        omega

/-- C2 counterexample: the first attempt raises "connection reset"
(neither "429" nor "rate limit"), yet the task is not failed after that
attempt — the loop retries and the task in fact succeeds on its second
attempt. -/
theorem c2_counterexample :
    isRateLimitMsg "connection reset" = false
    ∧ behFirstErrThenOk 0 = AttemptOutcome.err "connection reset"
    ∧ (processTaskWithRetries behFirstErrThenOk "chunk_0_users_0" 3).result.success = true
    ∧ (processTaskWithRetries behFirstErrThenOk "chunk_0_users_0" 3).attempts = 2 := by
  refine ⟨by decide, rfl, ?_, ?_⟩ <;> rfl

/-- C2 (amended): a non-rate-limit error does not abort the task after
its first attempt; the loop keeps retrying it (with no backoff sleep,
unlike rate-limit errors) and emits the failure only once the attempt
index reaches `max_retries`. In particular, if every attempt raises a
non-rate-limit error, the task fails after exactly `maxRetries + 1`
attempts with zero sleeps. -/
theorem c2_amended (beh : ℕ → AttemptOutcome) (tid : String) (maxR : ℕ)
    (hbeh : ∀ i, i ≤ maxR → ∃ m, beh i = AttemptOutcome.err m ∧ isRateLimitMsg m = false) :
    (processTaskWithRetries beh tid maxR).result.success = false
    ∧ (processTaskWithRetries beh tid maxR).attempts = maxR + 1
    ∧ (processTaskWithRetries beh tid maxR).sleeps = 0 := by
  obtain ⟨ha, _, hc, hd⟩ :=
    processGo_all_err beh tid maxR false hbeh (maxR + 1) 0 (Nat.zero_le _) (by omega)
  exact ⟨ha, hc, by simpa using hd⟩

/-- Witness for C2 (amended) with the always-failing behaviour and
`max_retries = 3`. -/
theorem c2_amended_witness :
    (processTaskWithRetries behAlwaysBoom "chunk_0_users_0" 3).result.success = false
    ∧ (processTaskWithRetries behAlwaysBoom "chunk_0_users_0" 3).attempts = 3 + 1
    ∧ (processTaskWithRetries behAlwaysBoom "chunk_0_users_0" 3).sleeps = 0 := by
  have h : ∀ i, i ≤ 3 → ∃ m, behAlwaysBoom i = AttemptOutcome.err m
      ∧ isRateLimitMsg m = false := by
    intro i _
    exact ⟨"boom", rfl, by decide⟩
  exact c2_amended behAlwaysBoom "chunk_0_users_0" 3 h

/-- C3 counterexample: with `max_retries = 3` and a service that raises
a rate-limit error on every attempt, 4 attempts are made, but the field
of the emitted result that records them — `retry_count` — holds 3 (the
final attempt index), not 4. -/
theorem c3_counterexample :
    (processTaskWithRetries behAlways429 "chunk_0_admin_0" 3).result.success = false
    ∧ (processTaskWithRetries behAlways429 "chunk_0_admin_0" 3).attempts = 4
    ∧ (processTaskWithRetries behAlways429 "chunk_0_admin_0" 3).result.retry_count = 3
    ∧ (processTaskWithRetries behAlways429 "chunk_0_admin_0" 3).result.retry_count ≠ 4 := by
  refine ⟨rfl, rfl, rfl, by decide⟩

/-- C3 (amended): with a generation service raising a rate-limit error
on every attempt, every task ends in failure after exactly
`maxRetries + 1` attempts (4 when `max_retries = 3`), its result's
`retry_count` field recording `maxRetries` (the final attempt index, not
the attempt total); and no run of the loop ever makes more than
`maxRetries + 1` attempts. -/
theorem c3_amended :
    (∀ (beh : ℕ → AttemptOutcome) (tid : String) (maxR : ℕ),
      (∀ i, i ≤ maxR → ∃ m, beh i = AttemptOutcome.err m ∧ isRateLimitMsg m = true) →
      (processTaskWithRetries beh tid maxR).result.success = false
      ∧ (processTaskWithRetries beh tid maxR).attempts = maxR + 1
      ∧ (processTaskWithRetries beh tid maxR).result.retry_count = maxR)
    ∧ (∀ (beh : ℕ → AttemptOutcome) (tid : String) (maxR : ℕ),
      (processTaskWithRetries beh tid maxR).attempts ≤ maxR + 1) := by
  constructor
  · intro beh tid maxR hbeh
    obtain ⟨ha, hb, hc, _⟩ :=
      processGo_all_err beh tid maxR true hbeh (maxR + 1) 0 (Nat.zero_le _) (by omega)
    exact ⟨ha, hc, hb⟩
  · intro beh tid maxR
    simpa [processTaskWithRetries] using processGo_attempts_le beh tid maxR (maxR + 1) 0

/-- Witness for C3 (amended) with the always-429 behaviour and
`max_retries = 3`. -/
theorem c3_amended_witness :
    (processTaskWithRetries behAlways429 "chunk_1_admin_1" 3).result.success = false
    ∧ (processTaskWithRetries behAlways429 "chunk_1_admin_1" 3).attempts = 3 + 1
    ∧ (processTaskWithRetries behAlways429 "chunk_1_admin_1" 3).result.retry_count = 3 := by
  have h : ∀ i, i ≤ 3 → ∃ m, behAlways429 i = AttemptOutcome.err m
      ∧ isRateLimitMsg m = true := by
    intro i _
    exact ⟨"429 Too Many Requests", rfl, by decide⟩
  exact c3_amended.1 behAlways429 "chunk_1_admin_1" 3 h

/-! ## Chunk builder conservation and bounds (claims C5, C6, C9) -/

theorem balancedChunksGo_flatMap (cfg : AdvancedAPIChunker) (g : String) :
    ∀ (rest cur : List EndpointComplexity) (curTok counter : ℕ),
      (balancedChunksGo cfg g rest cur curTok counter).flatMap (fun c => c.endpoints)
        = cur ++ rest := by
  intro rest
  induction rest with
  | nil =>
    intro cur curTok counter
    by_cases h : cur.isEmpty
    · simp [balancedChunksGo, h, List.isEmpty_iff.mp h]
    · simp [balancedChunksGo, h]
  | cons ep rest ih =>
    intro cur curTok counter
    by_cases h : (shouldCreateNewChunk cfg (curTok + ep.token_count) cur.length
        && !cur.isEmpty) = true
    · simp [balancedChunksGo, h, ih]
    · simp only [balancedChunksGo, h, if_false, Bool.false_eq_true]
      rw [ih]
      simp

theorem balancedChunksGo_wf (cfg : AdvancedAPIChunker) (g : String) :
    ∀ (rest cur : List EndpointComplexity) (curTok counter : ℕ),
      curTok = sumTok cur →
      (2 ≤ cur.length → curTok ≤ cfg.max_tokens_per_chunk) →
      ∀ c ∈ balancedChunksGo cfg g rest cur curTok counter,
        c.estimated_tokens = sumTok c.endpoints
        ∧ (2 ≤ c.endpoints.length → c.estimated_tokens ≤ cfg.max_tokens_per_chunk) := by
  intro rest
  induction rest with
  | nil =>
    intro cur curTok counter h1 h2 c hc
    by_cases h : cur.isEmpty
    · simp [balancedChunksGo, h] at hc
    · simp only [balancedChunksGo, h, if_false, Bool.false_eq_true, List.mem_singleton] at hc
      subst hc
      simpa using ⟨h1, h2⟩
  | cons ep rest ih =>
    intro cur curTok counter h1 h2 c hc
    by_cases h : (shouldCreateNewChunk cfg (curTok + ep.token_count) cur.length
        && !cur.isEmpty) = true
    · simp only [balancedChunksGo, h, if_true, List.mem_cons] at hc
      rcases hc with hc | hc
      · subst hc
        simpa using ⟨h1, h2⟩
      · refine ih [ep] ep.token_count (counter + 1) (by simp) (by simp) c hc
    · simp only [balancedChunksGo, h, if_false, Bool.false_eq_true] at hc
      refine ih (cur ++ [ep]) (curTok + ep.token_count) counter ?_ ?_ c hc
      · simp [h1]
      · intro hlen
        rcases cur with _ | ⟨x, xs⟩
        · simp at hlen
        · have hempty : ((x :: xs : List EndpointComplexity).isEmpty) = false := rfl
          have hnew : shouldCreateNewChunk cfg (curTok + ep.token_count)
              (x :: xs).length = false := by
            rcases Bool.and_eq_false_iff.mp (Bool.eq_false_iff.mpr
              (fun hcontra => h hcontra)) with h' | h'
            · exact h'
            · simp [hempty] at h'
          simp only [shouldCreateNewChunk, Bool.or_eq_false_iff,
            decide_eq_false_iff_not] at hnew
          have hle : ¬ cfg.max_tokens_per_chunk < curTok + ep.token_count := hnew.1.1
          omega

theorem createBalancedChunks_perm (cfg : AdvancedAPIChunker)
    (operations : List EndpointComplexity) (g : String) :
    ((createBalancedChunks cfg operations g).flatMap (fun c => c.endpoints)).Perm
      operations := by
  by_cases h : operations.isEmpty
  · simp [createBalancedChunks, h, List.isEmpty_iff.mp h]
  · simp only [createBalancedChunks, h, if_false, Bool.false_eq_true]
    rw [balancedChunksGo_flatMap]
    simpa using List.perm_insertionSort endpointSortRel operations

theorem createBalancedChunks_wf (cfg : AdvancedAPIChunker)
    (operations : List EndpointComplexity) (g : String) :
    ∀ c ∈ createBalancedChunks cfg operations g,
      c.estimated_tokens = sumTok c.endpoints
      ∧ (2 ≤ c.endpoints.length → c.estimated_tokens ≤ cfg.max_tokens_per_chunk) := by
  by_cases h : operations.isEmpty
  · simp [createBalancedChunks, h]
  · simp only [createBalancedChunks, h, if_false, Bool.false_eq_true]
    exact balancedChunksGo_wf cfg g _ [] 0 0 (by simp) (by simp)

theorem optimizeStep_flatMap (cfg : AdvancedAPIChunker) (c : IntelligentChunk) :
    (optimizeStep cfg c).flatMap (fun x => x.endpoints) = c.endpoints := by
  by_cases h : splitCond cfg c = true
  · simp [optimizeStep, h, splitLargeChunk]
  · simp [optimizeStep, h]

theorem optimizeStep_est_sum (cfg : AdvancedAPIChunker) (c : IntelligentChunk)
    (hc : c.estimated_tokens = sumTok c.endpoints) :
    ((optimizeStep cfg c).map (fun x => x.estimated_tokens)).sum = c.estimated_tokens := by
  by_cases h : splitCond cfg c = true
  · simp only [optimizeStep, h, if_true, splitLargeChunk, List.map_cons, List.map_nil,
      buildChunk_estimated_tokens, List.sum_cons, List.sum_nil, add_zero]
    rw [sumTok_take_add_drop, hc]
  · simp [optimizeStep, h]

theorem optimizeStep_wf (cfg : AdvancedAPIChunker) (c : IntelligentChunk)
    (hmin : 1 ≤ cfg.min_endpoints_per_chunk)
    (h1 : c.estimated_tokens = sumTok c.endpoints)
    (h2 : 2 ≤ c.endpoints.length → c.estimated_tokens ≤ cfg.max_tokens_per_chunk) :
    ∀ d ∈ optimizeStep cfg c,
      d.estimated_tokens = sumTok d.endpoints
      ∧ (2 ≤ d.endpoints.length → d.estimated_tokens ≤ cfg.max_tokens_per_chunk) := by
  intro d hd
  by_cases h : splitCond cfg c = true
  · have hlen : 2 * cfg.min_endpoints_per_chunk < c.endpoints.length := by
      simp only [splitCond, Bool.and_eq_true, decide_eq_true_eq] at h
      exact h.2
    have hbound : c.estimated_tokens ≤ cfg.max_tokens_per_chunk := h2 (by omega)
    have htake : sumTok (c.endpoints.take (c.endpoints.length / 2))
        ≤ sumTok c.endpoints := by
      have := sumTok_take_add_drop c.endpoints (c.endpoints.length / 2)
      omega
    have hdrop : sumTok (c.endpoints.drop (c.endpoints.length / 2))
        ≤ sumTok c.endpoints := by
      have := sumTok_take_add_drop c.endpoints (c.endpoints.length / 2)
      omega
    simp only [optimizeStep, h, if_true, splitLargeChunk, List.mem_cons,
      List.mem_singleton, List.not_mem_nil, or_false] at hd
    rcases hd with hd | hd <;> subst hd
    · exact ⟨by simp, fun _ => by simpa using le_trans htake (h1 ▸ hbound)⟩
    · exact ⟨by simp, fun _ => by simpa using le_trans hdrop (h1 ▸ hbound)⟩
  · simp only [optimizeStep, h, if_false, Bool.false_eq_true, List.mem_singleton] at hd
    subst hd
    exact ⟨h1, h2⟩

theorem optimizePass_flatMap (cfg : AdvancedAPIChunker) :
    ∀ l : List IntelligentChunk,
      (l.flatMap (optimizeStep cfg)).flatMap (fun c => c.endpoints)
        = l.flatMap (fun c => c.endpoints) := by
  intro l
  induction l with
  | nil => rfl
  | cons c rest ih =>
    simp only [List.flatMap_cons, List.flatMap_append, ih, optimizeStep_flatMap]

theorem optimizePass_est_sum (cfg : AdvancedAPIChunker) :
    ∀ l : List IntelligentChunk,
      (∀ c ∈ l, c.estimated_tokens = sumTok c.endpoints) →
      ((l.flatMap (optimizeStep cfg)).map (fun c => c.estimated_tokens)).sum
        = (l.map (fun c => c.estimated_tokens)).sum := by
  intro l
  induction l with
  | nil => simp
  | cons c rest ih =>
    intro h
    simp only [List.flatMap_cons, List.map_append, List.sum_append, List.map_cons,
      List.sum_cons]
    rw [optimizeStep_est_sum cfg c (h c (List.mem_cons_self c rest)),
      ih (fun d hd => h d (List.mem_cons_of_mem c hd))]

theorem est_sum_eq_sumTok_flatMap :
    ∀ l : List IntelligentChunk,
      (∀ c ∈ l, c.estimated_tokens = sumTok c.endpoints) →
      (l.map (fun c => c.estimated_tokens)).sum = sumTok (l.flatMap (fun c => c.endpoints)) := by
  intro l
  induction l with
  | nil => simp
  | cons c rest ih =>
    intro h
    simp only [List.map_cons, List.sum_cons, List.flatMap_cons, sumTok_append]
    rw [h c (List.mem_cons_self c rest), ih (fun d hd => h d (List.mem_cons_of_mem c hd))]

/-- C5: for every list of scored operations given to the chunk builder
for one group, the sum of `estimated_tokens` over all chunks produced
for that group — after the split pass of `_optimize_chunk_distribution`,
which may replace a chunk by its two children — equals the sum of the
operations' token counts, and the operations contained in the output
chunks are exactly the input operations (each appears in exactly one
output chunk, stated as a permutation of the concatenation). -/
theorem c5_token_conservation (cfg : AdvancedAPIChunker)
    (operations : List EndpointComplexity) (group_name : String) :
    (((optimizeChunkDistribution cfg (createBalancedChunks cfg operations group_name)).map
        (fun c => c.estimated_tokens)).sum
      = (operations.map (fun e => e.token_count)).sum)
    ∧ ((optimizeChunkDistribution cfg (createBalancedChunks cfg operations group_name)).flatMap
        (fun c => c.endpoints)).Perm operations := by
  have hwf := createBalancedChunks_wf cfg operations group_name
  have hperm := createBalancedChunks_perm cfg operations group_name
  have hest : ∀ c ∈ createBalancedChunks cfg operations group_name,
      c.estimated_tokens = sumTok c.endpoints := fun c hc => (hwf c hc).1
  by_cases hlen : (createBalancedChunks cfg operations group_name).length ≤ 1
  · constructor
    · rw [optimizeChunkDistribution, if_pos hlen, est_sum_eq_sumTok_flatMap _ hest]
      simpa [sumTok] using (hperm.map (fun e => e.token_count)).sum_eq
    · rw [optimizeChunkDistribution, if_pos hlen]
      exact hperm
  · have hsorted : (List.insertionSort chunkSortRel
        (createBalancedChunks cfg operations group_name)).Perm
        (createBalancedChunks cfg operations group_name) :=
      List.perm_insertionSort chunkSortRel _
    have hest' : ∀ c ∈ List.insertionSort chunkSortRel
        (createBalancedChunks cfg operations group_name),
        c.estimated_tokens = sumTok c.endpoints :=
      fun c hc => hest c (hsorted.mem_iff.mp hc)
    have hjoin : ((List.insertionSort chunkSortRel
        (createBalancedChunks cfg operations group_name)).flatMap
          (fun c => c.endpoints)).Perm
        ((createBalancedChunks cfg operations group_name).flatMap (fun c => c.endpoints)) := by
      rw [List.flatMap_def, List.flatMap_def]
      exact (hsorted.map (fun c => c.endpoints)).flatten
    constructor
    · rw [optimizeChunkDistribution, if_neg hlen, optimizePass_est_sum cfg _ hest',
        est_sum_eq_sumTok_flatMap _ hest']
      have h1 : sumTok ((List.insertionSort chunkSortRel
          (createBalancedChunks cfg operations group_name)).flatMap (fun c => c.endpoints))
          = sumTok ((createBalancedChunks cfg operations group_name).flatMap
            (fun c => c.endpoints)) := by
        simpa [sumTok] using (hjoin.map (fun e => e.token_count)).sum_eq
      rw [h1]
      have h2 := est_sum_eq_sumTok_flatMap _ hest
      simpa [sumTok] using (hperm.map (fun e => e.token_count)).sum_eq
    · rw [optimizeChunkDistribution, if_neg hlen, optimizePass_flatMap]
      exact hjoin.trans hperm

/-- Witness instantiating C5 at a concrete two-operation group. -/
theorem c5_token_conservation_witness :
    (((optimizeChunkDistribution cfgDefault
        (createBalancedChunks cfgDefault [epSmallA, epSmallB] "g")).map
        (fun c => c.estimated_tokens)).sum
      = ([epSmallA, epSmallB].map (fun e => e.token_count)).sum)
    ∧ ((optimizeChunkDistribution cfgDefault
        (createBalancedChunks cfgDefault [epSmallA, epSmallB] "g")).flatMap
        (fun c => c.endpoints)).Perm [epSmallA, epSmallB] :=
  c5_token_conservation cfgDefault [epSmallA, epSmallB] "g"

/-- C6 (amended): after the split pass, every produced chunk containing
at least two operations respects `max_tokens_per_chunk` (for any
configuration with `min_endpoints_per_chunk ≥ 1`); only a singleton
chunk — one operation whose own token estimate exceeds the limit — can
exceed it, and such a chunk is never split. -/
theorem c6_amended (cfg : AdvancedAPIChunker) (operations : List EndpointComplexity)
    (group_name : String) (hmin : 1 ≤ cfg.min_endpoints_per_chunk) :
    ∀ c ∈ optimizeChunkDistribution cfg (createBalancedChunks cfg operations group_name),
      2 ≤ c.endpoints.length → c.estimated_tokens ≤ cfg.max_tokens_per_chunk := by
  have hwf := createBalancedChunks_wf cfg operations group_name
  by_cases hlen : (createBalancedChunks cfg operations group_name).length ≤ 1
  · rw [optimizeChunkDistribution, if_pos hlen]
    exact fun c hc => (hwf c hc).2
  · rw [optimizeChunkDistribution, if_neg hlen]
    intro c hc
    obtain ⟨d, hd, hcd⟩ := List.mem_flatMap.mp hc
    have hdmem : d ∈ createBalancedChunks cfg operations group_name :=
      (List.perm_insertionSort chunkSortRel _).mem_iff.mp hd
    exact (optimizeStep_wf cfg d hmin (hwf d hdmem).1 (hwf d hdmem).2 c hcd).2

/-- Witness instantiating C6 (amended): the two small operations are
packed into one chunk of 250 tokens, which respects the 15000 limit. -/
theorem c6_amended_witness :
    chunkSmallPair ∈ optimizeChunkDistribution cfgDefault
        (createBalancedChunks cfgDefault [epSmallA, epSmallB] "g")
    ∧ 2 ≤ chunkSmallPair.endpoints.length
    ∧ chunkSmallPair.estimated_tokens ≤ cfgDefault.max_tokens_per_chunk :=
  ⟨by decide, by decide,
    c6_amended cfgDefault [epSmallA, epSmallB] "g" (by decide) chunkSmallPair
      (by decide) (by decide)⟩

/-- C6 counterexample: a single operation of 16000 tokens under the
default configuration (`max = 15000`, `min = 2`). The pipeline emits a
singleton chunk of 16000 tokens; the 0.9-threshold split condition holds
for no chunk with more than `2*min` members (so the claim's proviso is
satisfied), yet the chunk exceeds `max_tokens_per_chunk`. -/
theorem c6_counterexample :
    (optimizeChunkDistribution cfgDefault
        (createBalancedChunks cfgDefault [epBig] "general")).all
        (fun c => !splitCond cfgDefault c) = true
    ∧ (optimizeChunkDistribution cfgDefault
        (createBalancedChunks cfgDefault [epBig] "general")).any
        (fun c => decide (cfgDefault.max_tokens_per_chunk < c.estimated_tokens)) = true := by
  exact ⟨by decide, by decide⟩

/-- C9: when the input API summary has an empty endpoint list, the
chunking entry point raises `ZeroDivisionError` while computing the
average complexity (`sum(...) / len(analyzed_endpoints)`) instead of
returning an empty chunk list. -/
theorem c9_empty_summary_raises (cfg : AdvancedAPIChunker)
    (analyzeOne : EndpointData → EndpointComplexity) (use_semantic_grouping : Bool) :
    createIntelligentChunks cfg analyzeOne { endpoints := [] } use_semantic_grouping
      = Except.error PyError.zeroDivisionError := rfl

/-- Witness instantiating C9 at a concrete analysis function. -/
theorem c9_empty_summary_raises_witness :
    createIntelligentChunks cfgDefault analyzeConst { endpoints := [] } true
      = Except.error PyError.zeroDivisionError :=
  c9_empty_summary_raises cfgDefault analyzeConst true

/-! ## Result merger (claims C8 and C10) -/

theorem charListLe_total : ∀ as bs : List Char,
    charListLe as bs = true ∨ charListLe bs as = true := by
  intro as
  induction as with
  | nil => intro bs; left; rfl
  | cons a as ih =>
    intro bs
    cases bs with
    | nil => right; rfl
    | cons b bs =>
      by_cases hab : a < b
      · left; simp [charListLe, hab]
      · by_cases hba : b < a
        · right; simp [charListLe, hba]
        · rcases ih bs with h | h
          · left; simpa [charListLe, hab, hba] using h
          · right; simpa [charListLe, hab, hba] using h

theorem charListLe_trans : ∀ as bs cs : List Char,
    charListLe as bs = true → charListLe bs cs = true → charListLe as cs = true := by
  intro as
  induction as with
  | nil => intro bs cs _ _; rfl
  | cons a as ih =>
    intro bs cs h1 h2
    cases bs with
    | nil => simp [charListLe] at h1
    | cons b bs =>
      cases cs with
      | nil => simp [charListLe] at h2
      | cons c cs =>
        by_cases hab : a < b
        · -- a < b; need charListLe (a :: as) (c :: cs)
          by_cases hbc : b < c
          · simp [charListLe, lt_trans hab hbc]
          · by_cases hcb : c < b
            · simp [charListLe, hbc, hcb] at h2
            · have hbc' : b = c := le_antisymm (not_lt.mp hcb) (not_lt.mp hbc)
              simp [charListLe, hbc' ▸ hab]
        · by_cases hba : b < a
          · simp [charListLe, hab, hba] at h1
          · have hab' : a = b := le_antisymm (not_lt.mp hba) (not_lt.mp hab)
            subst hab'
            by_cases hac : a < c
            · simp [charListLe, hac]
            · by_cases hca : c < a
              · simp [charListLe, hca, not_lt_of_lt hca] at h2
              · simp only [charListLe, if_neg hab, if_neg hba] at h1
                simp only [charListLe, if_neg hac, if_neg hca] at h2 ⊢
                exact ih bs cs h1 h2

/-- C8 (amended): the merger raises its merge failure when there is no
result that both succeeded and carries non-empty content — in
particular whenever there are zero successes, which is the half of the
claim that holds as stated; when it does produce an artifact, the
surviving chunks' contents appear sorted by ascending `task_id`,
whatever the completion order of the input list was, and they are
exactly the truthy successes of the input. A list whose successes all
carry absent/empty content also triggers the failure, so "at least one
success" alone does not guarantee an artifact. -/
theorem c8_merge_ordering (results : List ProcessingResult) :
    ((∀ r ∈ results, r.success = false) →
      mergeResultsIntelligent results = Except.error "No successful chunks to merge")
    ∧ (∀ out, mergeResultsIntelligent results = Except.ok out →
        List.Sorted resultLe out ∧ out.Perm (successfulResults results))
    ∧ ((∃ r ∈ results, r.success = true ∧ contentTruthy r.ui_content = true) →
        ∃ out, mergeResultsIntelligent results = Except.ok out) := by
  refine ⟨?_, ?_, ?_⟩
  · intro h
    have hfilter : successfulResults results = [] := by
      rw [successfulResults, List.filter_eq_nil_iff]
      intro r hr
      simp [h r hr]
    simp [mergeResultsIntelligent, hfilter]
  · intro out hout
    by_cases hempty : (successfulResults results).isEmpty
    · simp [mergeResultsIntelligent, hempty] at hout
    · simp only [mergeResultsIntelligent, hempty, if_false, Bool.false_eq_true,
        Except.ok.injEq] at hout
      subst hout
      haveI htot : IsTotal ProcessingResult resultLe :=
        ⟨fun a b => charListLe_total a.task_id.data b.task_id.data⟩
      haveI htrans : IsTrans ProcessingResult resultLe :=
        ⟨fun a b c => charListLe_trans a.task_id.data b.task_id.data c.task_id.data⟩
      exact ⟨List.sorted_insertionSort resultLe _, List.perm_insertionSort resultLe _⟩
  · intro h
    obtain ⟨r, hr, hsucc, htruthy⟩ := h
    have hmem : r ∈ successfulResults results :=
      List.mem_filter.mpr ⟨hr, by simp [hsucc, htruthy]⟩
    have hne : (successfulResults results).isEmpty = false :=
      List.isEmpty_eq_false.mpr (List.ne_nil_of_mem hmem)
    exact ⟨List.insertionSort resultLe (successfulResults results), by
      simp [mergeResultsIntelligent, hne]⟩

/-- Witness for C8 (amended), applying its first part to an all-failed
list. -/
theorem c8_merge_ordering_witness :
    mergeResultsIntelligent [rFailedMerge]
      = Except.error "No successful chunks to merge" :=
  (c8_merge_ordering [rFailedMerge]).1 (by decide)

/-- C8 counterexample: a list containing a successful result (with
absent content) on which the merger nevertheless raises the zero-success
merge failure, refuting "otherwise (some success present) it produces an
artifact". -/
theorem c8_counterexample :
    rSuccessNoContent.success = true
    ∧ mergeResultsIntelligent [rSuccessNoContent]
        = Except.error "No successful chunks to merge" :=
  ⟨rfl, rfl⟩

/-- C10: the merger excludes any result whose content is absent or the
empty string even when its success flag is true; consequently a result
list in which every entry failed or succeeded with empty/absent content
triggers the zero-success merge failure, and conversely every result
surviving into a produced artifact is a success with non-empty
content. -/
theorem c10_empty_content_excluded :
    (∀ results : List ProcessingResult,
      (∀ r ∈ results, r.success = false ∨ r.ui_content = none ∨ r.ui_content = some "") →
      mergeResultsIntelligent results = Except.error "No successful chunks to merge")
    ∧ (∀ (results : List ProcessingResult) (out : List ProcessingResult),
        mergeResultsIntelligent results = Except.ok out →
        ∀ r ∈ out, r.success = true ∧ contentTruthy r.ui_content = true) := by
  constructor
  · intro results h
    have hfilter : successfulResults results = [] := by
      rw [successfulResults, List.filter_eq_nil_iff]
      intro r hr
      rcases h r hr with h' | h' | h' <;> simp [h', contentTruthy]
    simp [mergeResultsIntelligent, hfilter]
  · intro results out hout r hr
    by_cases hempty : (successfulResults results).isEmpty
    · simp [mergeResultsIntelligent, hempty] at hout
    · simp only [mergeResultsIntelligent, hempty, if_false, Bool.false_eq_true,
        Except.ok.injEq] at hout
      subst hout
      have hmem : r ∈ successfulResults results :=
        (List.perm_insertionSort resultLe _).mem_iff.mp hr
      have := (List.mem_filter.mp hmem).2
      exact ⟨(Bool.and_eq_true _ _ ▸ this).1, (Bool.and_eq_true _ _ ▸ this).2⟩

/-- Witness for C10: one failed result and one success whose content is
the empty string; the merger raises despite the success flag. -/
theorem c10_empty_content_excluded_witness :
    mergeResultsIntelligent [rFailedEmptyCase, rSuccessEmptyContent]
      = Except.error "No successful chunks to merge" :=
  c10_empty_content_excluded.1 [rFailedEmptyCase, rSuccessEmptyContent] (by decide)
